import Mathlib

/-!
Verification of the particle-generation and animation core of the
`nebula-hand` repository (src/components/ParticleSystem.tsx, src/data.ts),
shallowly embedded over exact rational arithmetic.

Conventions of the embedding:
* JS numbers are modelled by `ℚ`; the float special values needed by the
  palette sampler are modelled by `JsFloat` (finite / NaN / ±infinity).
* `Math.sin`, `Math.cos`, `Math.acos`, `Math.atan2`, `Math.cbrt` are fields
  of an abstract `JsMath` structure; theorems that need trigonometric facts
  assume `GoodMath M` (the Pythagorean identity).  `Math.PI` is the double
  constant, a fixed rational.
* Each call to `Math.random()` consumes the next element of an explicit
  stream of rationals (`RS`); hypotheses of the form `UnitStream s` record
  that draws lie in `[0,1)`.
* `THREE.Color` is a record of three rationals; `clone()` is value copy in
  the pure model, and object identity / in-place mutation is modelled
  separately by a small heap (`Store`) for the aliasing claim.
* Division by zero in `ℚ` yields `0` where JS would yield `NaN`; this is
  only reachable for degenerate radii that no claim touches.
-/

/-- RGB triple, the value content of a `THREE.Color`. -/
structure Color where
  r : ℚ
  g : ℚ
  b : ℚ
deriving DecidableEq, Repr

/-- `THREE.Color.addScalar`. -/
def Color.addScalar (c : Color) (s : ℚ) : Color := ⟨c.r + s, c.g + s, c.b + s⟩

/-- `THREE.Color.multiplyScalar`. -/
def Color.multiplyScalar (c : Color) (s : ℚ) : Color := ⟨c.r * s, c.g * s, c.b * s⟩

/-- `THREE.Color.lerp this + (that - this) * alpha`. -/
def Color.lerp (c d : Color) (t : ℚ) : Color :=
  ⟨c.r + (d.r - c.r) * t, c.g + (d.g - c.g) * t, c.b + (d.b - c.b) * t⟩

/-- The default white color `new THREE.Color(1, 1, 1)`. -/
def Color.white : Color := ⟨1, 1, 1⟩

abbrev Vec3 := ℚ × ℚ × ℚ

/-- Squared Euclidean norm of a position. -/
def normSq (v : Vec3) : ℚ := v.1 ^ 2 + v.2.1 ^ 2 + v.2.2 ^ 2

/-- A JS float as far as the palette sampler is concerned:
either a finite value or one of the non-finite values. -/
inductive JsFloat where
  | finite (q : ℚ)
  | nan
  | posInf
  | negInf
deriving DecidableEq, Repr

/-- `Number.isFinite`. -/
def JsFloat.isFinite : JsFloat → Bool
  | .finite _ => true
  | _ => false

/-- The finite value of a `JsFloat`, with non-finite values read as `0`
(this is exactly the sampler's replacement rule). -/
def JsFloat.val : JsFloat → ℚ
  | .finite q => q
  | _ => 0

/-- `getSafeColor` (ParticleSystem.tsx lines 22-38): empty palette gives
white; a non-finite index is replaced by `0`; otherwise `floor` then clamp
into `[0, len-1]` and return a clone of that entry (value copy here). -/
def getSafeColor (colors : List Color) (idx : JsFloat) : Color :=
  if colors.isEmpty then Color.white
  else
    let safeIndex : ℚ := if idx.isFinite then idx.val else 0
    let j : ℤ := max 0 (min ⌊safeIndex⌋ ((colors.length : ℤ) - 1))
    match colors.get? j.toNat with
    | some c => c
    | none => Color.white

/-- JS `%` on non-negative operands: `a - b * ⌊a / b⌋` (for `a ≥ 0`, `b > 0`
the JS truncated remainder agrees with the floored one). -/
def qmod (a b : ℚ) : ℚ := a - b * ⌊a / b⌋

/-- The abstract JS math library: the trigonometric and root functions used
by the generator, left abstract (only the properties stated in `GoodMath`
are ever assumed). -/
structure JsMath where
  sin : ℚ → ℚ
  cos : ℚ → ℚ
  acos : ℚ → ℚ
  atan2 : ℚ → ℚ → ℚ
  cbrt : ℚ → ℚ

/-- The only analytic fact any claim needs: the Pythagorean identity. -/
def GoodMath (M : JsMath) : Prop :=
  ∀ x : ℚ, M.sin x ^ 2 + M.cos x ^ 2 = 1

/-- `Math.PI` as the IEEE double constant. -/
def jsPI : ℚ := 3.141592653589793

/-- `noise` (lines 16-19): two-octave sine/cosine product field. -/
def noise (M : JsMath) (x y z : ℚ) : ℚ :=
  M.sin (x * 12) * M.cos (y * 12) * M.sin (z * 12) +
    M.sin (x * 4) * M.sin (y * 4) * M.cos (z * 4) * (1 / 2)

/-- A `Math.random()` source: an infinite stream of draws plus a cursor. -/
structure RS where
  s : ℕ → ℚ
  pos : ℕ

/-- Consume one draw. -/
def RS.next (r : RS) : ℚ × RS := (r.s r.pos, ⟨r.s, r.pos + 1⟩)

/-- All draws of a stream lie in `[0, 1)`, as `Math.random()` guarantees. -/
def UnitStream (s : ℕ → ℚ) : Prop := ∀ n, 0 ≤ s n ∧ s n < 1

/-- A body descriptor (`CelestialBodyConfig` of src/types, as populated by
src/data.ts); palettes are already converted from hex to RGB values. -/
structure CelestialBodyConfig where
  name : String
  type : String
  radius : ℚ
  colors : List Color
  hasRings : Bool
  ringColors : List Color
  textureType : String
deriving DecidableEq, Repr

/-- Hex channel to `[0,1]` value. -/
def ch (n : ℕ) : ℚ := (n : ℚ) / 255

/-- `new THREE.Color("#rrggbb")` on a hex triple. -/
def mkColor (r g b : ℕ) : Color := ⟨ch r, ch g, ch b⟩

/-- `CELESTIAL_BODIES` (src/data.ts lines 4-105). -/
def CELESTIAL_BODIES : List CelestialBodyConfig :=
  [ ⟨"Sun", "star", 4,
      [mkColor 0xFF 0xF7 0x00, mkColor 0xFF 0x8C 0x00,
       mkColor 0xFF 0x45 0x00, mkColor 0x8B 0x00 0x00],
      false, [], "noise"⟩,
    ⟨"Mercury", "planet", 3/2,
      [mkColor 0xA5 0xA5 0xA5, mkColor 0x8C 0x8C 0x8C,
       mkColor 0x68 0x68 0x68, mkColor 0x4A 0x4A 0x4A],
      false, [], "noise"⟩,
    ⟨"Venus", "planet", 28/10,
      [mkColor 0xF5 0xDE 0xB3, mkColor 0xE6 0xC2 0x88,
       mkColor 0xD2 0xB4 0x8C, mkColor 0xFF 0xFA 0xCD],
      false, [], "noise"⟩,
    ⟨"Earth", "planet", 3,
      [mkColor 0x02 0x06 0x14, mkColor 0x0a 0x24 0x52,
       mkColor 0x1c 0x6b 0xa0, mkColor 0x0f 0x2b 0x0f,
       mkColor 0x3a 0x5f 0x28, mkColor 0x82 0x70 0x54,
       mkColor 0xff 0xff 0xff],
      false, [], "noise"⟩,
    ⟨"Moon", "moon", 1,
      [mkColor 0xD3 0xD3 0xD3, mkColor 0xA9 0xA9 0xA9,
       mkColor 0x80 0x80 0x80, mkColor 0xF5 0xF5 0xF5],
      false, [], "noise"⟩,
    ⟨"Mars", "planet", 22/10,
      [mkColor 0x8B 0x00 0x00, mkColor 0xB2 0x22 0x22,
       mkColor 0xCD 0x5C 0x5C, mkColor 0xE9 0x96 0x7A],
      false, [], "noise"⟩,
    ⟨"Jupiter", "planet", 45/10,
      [mkColor 0x8B 0x45 0x13, mkColor 0xD2 0x69 0x1E,
       mkColor 0xF4 0xA4 0x60, mkColor 0xFF 0xE4 0xB5,
       mkColor 0xA0 0x52 0x2D],
      false, [], "banded"⟩,
    ⟨"Saturn", "planet", 38/10,
      [mkColor 0xD8 0xC3 0x98, mkColor 0xC7 0xB2 0x83,
       mkColor 0xBD 0xB7 0x6B, mkColor 0x8B 0x73 0x55],
      true,
      [mkColor 0xC0 0xC0 0xC0, mkColor 0xD2 0xB4 0x8C, mkColor 0x8B 0x45 0x13],
      "banded"⟩,
    ⟨"Uranus", "planet", 32/10,
      [mkColor 0xE0 0xFF 0xFF, mkColor 0xAF 0xEE 0xEE,
       mkColor 0x7F 0xFF 0xD4, mkColor 0x40 0xE0 0xD0],
      true, [mkColor 0xE0 0xFF 0xFF, mkColor 0xAF 0xEE 0xEE], "solid"⟩,
    ⟨"Neptune", "planet", 32/10,
      [mkColor 0x00 0x00 0x80, mkColor 0x00 0x00 0xCD,
       mkColor 0x19 0x19 0x70, mkColor 0x41 0x69 0xE1],
      false, [], "noise"⟩,
    ⟨"Pluto", "planet", 8/10,
      [mkColor 0xF5 0xDE 0xB3, mkColor 0xD2 0xB4 0x8C,
       mkColor 0xC0 0xC0 0xC0, mkColor 0xFF 0xF8 0xDC],
      false, [], "noise"⟩ ]

instance : Inhabited CelestialBodyConfig := ⟨⟨"", "", 0, [], false, [], ""⟩⟩

/-- Thread a random source through a list of index-driven steps, collecting
one output per index (the shape of every generation loop in the source). -/
def mapRS {α β : Type} (f : α → RS → β × RS) : List α → RS → List β × RS
  | [], r => ([], r)
  | x :: xs, r =>
    let o := f x r
    let rest := mapRS f xs o.2
    (o.1 :: rest.1, rest.2)

/-- `ringParticleCount` (line 214): `Math.floor(count * 0.35)` if the
descriptor has rings, else `0`.  Note it tests only `hasRings`, never
whether the ring palette is empty. -/
def ringParticleCount (cfg : CelestialBodyConfig) (count : ℕ) : ℕ :=
  if cfg.hasRings then count * 35 / 100 else 0

/-- `bodyParticleCount` (line 215). -/
def bodyParticleCount (cfg : CelestialBodyConfig) (count : ℕ) : ℕ :=
  count - ringParticleCount cfg count

/-- Ring branch of the single-planet generator (lines 223-240): a particle
in the annulus `[1.3 r, 2.2 r)` on a thin disc, colored from the ring
palette with the tri-band modulo index and the Cassini-gap darkening. -/
def ringStep (M : JsMath) (cfg : CelestialBodyConfig) (r0 : RS) :
    (Vec3 × Color) × RS :=
  let inner := cfg.radius * (13/10)
  let outer := cfg.radius * (22/10)
  let d1 := r0.next
  let rr := inner + d1.1 * (outer - inner)
  let d2 := d1.2.next
  let theta := d2.1 * jsPI * 2
  let tx := rr * M.cos theta
  let tz := rr * M.sin theta
  let d3 := d2.2.next
  let ty := (d3.1 - 1/2) * (5/100)
  let normalizedR := (rr - inner) / (outer - inner)
  let ringLen := cfg.ringColors.length
  let cIdx := normalizedR * ringLen * 3
  let color := getSafeColor cfg.ringColors
    (.finite (if 0 < ringLen then qmod cIdx ringLen else 0))
  let color := if 6/10 < normalizedR ∧ normalizedR < 65/100 then
      color.multiplyScalar (2/10) else color
  (((tx, ty, tz), color), d3.2)

/-- Body-sphere branch of the single-planet generator (lines 242-346),
including the name-dispatched texture logic (Earth biomes, Jupiter and
Saturn bands, Mars and generic noise). -/
def bodyStep (M : JsMath) (cfg : CelestialBodyConfig) (r0 : RS) :
    (Vec3 × Color) × RS :=
  let rr := cfg.radius
  let d1 := r0.next
  let theta := d1.1 * jsPI * 2
  let d2 := d1.2.next
  let phi := M.acos (2 * d2.1 - 1)
  let tx := rr * M.sin phi * M.cos theta
  let ty := rr * M.cos phi
  let tz := rr * M.sin phi * M.sin theta
  let nY := (ty / rr + 1) / 2
  let nX := M.atan2 tz tx / (2 * jsPI) + 1/2
  if cfg.name = "Earth" then
    let lat := ty / rr
    let absLat := |lat|
    let nCont := noise M (tx * 1) (ty * 1) (tz * 1)
    let nDet := noise M (tx * 5) (ty * 5) (tz * 5)
    let nMoist := noise M (tx * 2 + 100) (ty * 2 + 100) (tz * 2 + 100)
    let h := nCont + nDet * (2/10)
    let nCloud := noise M (tx * (35/10) + 50) (ty * (35/10)) (tz * (35/10) + 50)
    let color :=
      if h < 5/100 then
        let depth := h - 5/100
        if -(15/100) < depth then getSafeColor cfg.colors (.finite 2)
        else if -(45/100) < depth then getSafeColor cfg.colors (.finite 1)
        else getSafeColor cfg.colors (.finite 0)
      else if 85/100 < absLat then getSafeColor cfg.colors (.finite 6)
      else if 4/10 < nDet ∨ 6/10 < h then getSafeColor cfg.colors (.finite 5)
      else if 1/10 < nMoist then
        if 1/2 < nMoist then getSafeColor cfg.colors (.finite 3)
        else getSafeColor cfg.colors (.finite 4)
      else if nMoist < -(3/10) then getSafeColor cfg.colors (.finite 5)
      else (getSafeColor cfg.colors (.finite 4)).lerp
        (cfg.colors.getD 5 Color.white) (1/2)
    if 55/100 < nCloud then
      let d3 := d2.2.next
      if 1/10 < d3.1 then
        let cloudHeight : ℚ := 4/100
        (((tx * (1 + cloudHeight), ty * (1 + cloudHeight), tz * (1 + cloudHeight)),
          getSafeColor cfg.colors (.finite 6)), d3.2)
      else (((tx, ty, tz), color), d3.2)
    else (((tx, ty, tz), color), d2.2)
  else if cfg.name = "Jupiter" then
    let bandFreq : ℚ := 15
    let turbulence := M.sin (nX * 10) * (5/100)
    let bandVal := M.cos ((nY + turbulence) * bandFreq * jsPI)
    let colorIdx := ((bandVal + 1) / 2) * cfg.colors.length
    (((tx, ty, tz), getSafeColor cfg.colors (.finite colorIdx)), d2.2)
  else if cfg.name = "Saturn" then
    let bandVal := M.cos (nY * 20 * jsPI)
    let colorIdx := ((bandVal + 1) / 2) * cfg.colors.length
    (((tx, ty, tz), getSafeColor cfg.colors (.finite colorIdx)), d2.2)
  else if cfg.name = "Mars" then
    let n := noise M (tx * 2) (ty * 2) (tz * 2)
    let normalizedN := max 0 (min 1 ((n + 3/2) / 3))
    let colorIdx := normalizedN * cfg.colors.length
    (((tx, ty, tz), getSafeColor cfg.colors (.finite colorIdx)), d2.2)
  else
    let n := noise M tx ty tz
    let normalizedN := max 0 (min 1 ((n + 3/2) / 3))
    let colorIdx := normalizedN * cfg.colors.length
    (((tx, ty, tz), getSafeColor cfg.colors (.finite colorIdx)), d2.2)

/-- One particle of the single-planet loop (lines 217-222): the particle at
global index `i` takes the ring branch iff `i >= bodyParticleCount` and the
descriptor has rings. -/
def planetStep (M : JsMath) (cfg : CelestialBodyConfig) (bpc i : ℕ)
    (r : RS) : (Vec3 × Color) × RS :=
  if bpc ≤ i ∧ cfg.hasRings = true then ringStep M cfg r else bodyStep M cfg r

/-- Orbit radii lookup table (line 76). -/
def radiiList : List ℚ := [6, 8, 10, 11, 14, 20, 26, 32, 38, 44]

/-- Orbit-line color (line 66). -/
def orbitColor : Color := ⟨2/10, 4/10, 8/10⟩

/-- Asteroid color (line 67). -/
def asteroidColor : Color := ⟨1/2, 1/2, 1/2⟩

/-- One particle of the Sun's turbulent core (lines 82-103); the glow draw
is consumed every iteration. -/
def sunCoreStep (M : JsMath) (sunColors : List Color) (r0 : RS) :
    (Vec3 × Color) × RS :=
  let rr : ℚ := 35/10
  let d1 := r0.next
  let theta := d1.1 * jsPI * 2
  let d2 := d1.2.next
  let phi := M.acos (2 * d2.1 - 1)
  let tx := rr * M.sin phi * M.cos theta
  let ty := rr * M.cos phi
  let tz := rr * M.sin phi * M.sin theta
  let n := noise M tx ty tz
  let normN := (n + 3/2) / 3
  let cIdx := normN * sunColors.length
  let color := getSafeColor sunColors (.finite cIdx)
  let d3 := d2.2.next
  let color := if 7/10 < d3.1 then color.addScalar (2/10) else color
  (((tx, ty, tz), color), d3.2)

/-- One particle of an orbit guide ring (lines 109-122), for ring radius
`rr`, position `j` of `particlesInRing`. -/
def orbitStep (M : JsMath) (rr : ℚ) (j particlesInRing : ℕ) (r0 : RS) :
    (Vec3 × Color) × RS :=
  let theta := ((j : ℚ) / (particlesInRing : ℚ)) * jsPI * 2
  let d1 := r0.next
  let jitter := (d1.1 - 1/2) * (1/10)
  let d2 := d1.2.next
  let ty := (d2.1 - 1/2) * (5/100)
  let d3 := d2.2.next
  let shade := 3/10 + d3.1 * (5/10)
  ((((rr + jitter) * M.cos theta, ty, (rr + jitter) * M.sin theta),
      orbitColor.multiplyScalar shade), d3.2)

/-- One asteroid-belt particle (lines 126-139). -/
def asteroidStep (M : JsMath) (r0 : RS) : (Vec3 × Color) × RS :=
  let rBase : ℚ := 16
  let rWidth : ℚ := 3
  let d1 := r0.next
  let rr := rBase + (d1.1 - 1/2) * rWidth
  let d2 := d1.2.next
  let theta := d2.1 * jsPI * 2
  let d3 := d2.2.next
  let ty := (d3.1 - 1/2) * (8/10)
  let d4 := d3.2.next
  let c := asteroidColor.multiplyScalar (1/2 + d4.1 * (1/2))
  (((rr * M.cos theta, ty, rr * M.sin theta), c), d4.2)

/-- One particle of a mini planet in the composite layout (lines 158-198):
ring sub-branch when the planet has rings and `k > 0.7 * particlesPerPlanet`,
else a scaled-down noisy sphere around the planet's orbit position. -/
def miniStep (M : JsMath) (planet : CelestialBodyConfig)
    (orbitR planetAngle : ℚ) (ppp k : ℕ) (r0 : RS) : (Vec3 × Color) × RS :=
  let cx := orbitR * M.cos planetAngle
  let cz := orbitR * M.sin planetAngle
  let pRingColors := planet.ringColors
  if planet.hasRings = true ∧ (ppp : ℚ) * (7/10) < (k : ℚ) then
    let rInner := planet.radius * (15/100) * (14/10)
    let rOuter := planet.radius * (15/100) * (22/10)
    let d1 := r0.next
    let rRing := rInner + d1.1 * (rOuter - rInner)
    let d2 := d1.2.next
    let thetaRing := d2.1 * jsPI * 2
    let px := cx + rRing * M.cos thetaRing
    let pz := cz + rRing * M.sin thetaRing
    let d3 := d2.2.next
    let py := (d3.1 - 1/2) * (5/100)
    let d4 := d3.2.next
    let cIdx : ℚ := (⌊d4.1 * (pRingColors.length : ℚ)⌋ : ℤ)
    (((px, py, pz), getSafeColor pRingColors (.finite cIdx)), d4.2)
  else
    let pr := planet.radius * (15/100)
    let d1 := r0.next
    let theta := d1.1 * jsPI * 2
    let d2 := d1.2.next
    let phi := M.acos (2 * d2.1 - 1)
    let px := cx + pr * M.sin phi * M.cos theta
    let py := pr * M.cos phi
    let pz := cz + pr * M.sin phi * M.sin theta
    let n := noise M px py pz
    let cIdx := ((n + 3/2) / 3) * planet.colors.length
    (((px, py, pz), getSafeColor planet.colors (.finite cIdx)), d2.2)

/-- The composite solar-system branch (lines 61-207): core, orbit guide
rings, asteroid belt, mini planets, zero-filled remainder.  The `break` at
line 159 can never fire because `37000 + planetCount * particlesPerPlanet
<= count` whenever the loop body runs, so it is not modelled; truncating to
`count` reproduces the silent out-of-range drop of typed-array writes for
small counts. -/
def sunGen (M : JsMath) (cfg : CelestialBodyConfig) (count : ℕ) (r : RS) :
    List (Vec3 × Color) × RS :=
  let sunColors := cfg.colors
  let core := mapRS (fun (_ : ℕ) => sunCoreStep M sunColors) (List.range 20000) r
  let particlesInRing := 9000 / radiiList.length
  let orbitIdx := (List.range radiiList.length).flatMap
    (fun i => (List.range particlesInRing).map (fun j => (i, j)))
  let orbits := mapRS
    (fun ij => orbitStep M (radiiList.getD ij.1 0) ij.2 particlesInRing)
    orbitIdx core.2
  let asts := mapRS (fun (_ : ℕ) => asteroidStep M) (List.range 8000) orbits.2
  let planetList := CELESTIAL_BODIES.filter (fun b => b.name ≠ "Sun")
  let ppp := (count - (core.1.length + orbits.1.length + asts.1.length)) /
    planetList.length
  let miniIdx := (List.range planetList.length).flatMap
    (fun p => (List.range ppp).map (fun k => (p, k)))
  let minis := mapRS (fun pk =>
      let planet := planetList.getD pk.1 default
      let orbitR := radiiList.getD (pk.1 % radiiList.length) 0
      let planetAngle := qmod ((pk.1 : ℚ) * (5/2)) (jsPI * 2)
      miniStep M planet orbitR planetAngle ppp pk.2) miniIdx asts.2
  let full := core.1 ++ orbits.1 ++ asts.1 ++ minis.1
  (full.take count ++ List.replicate (count - full.length) ((0, 0, 0), ⟨0, 0, 0⟩),
    minis.2)

/-- Target positions and colors for a descriptor (the whole generation
branch of the memo, lines 59-354): composite layout for the Sun, single
planet loop otherwise.  Returns the generated list together with the random
source as left after generation. -/
def targetGen (M : JsMath) (cfg : CelestialBodyConfig) (count : ℕ) (r : RS) :
    List (Vec3 × Color) × RS :=
  if cfg.name = "Sun" then sunGen M cfg count r
  else mapRS (planetStep M cfg (bodyParticleCount cfg count)) (List.range count) r

/-- One particle of the universal explosion loop (lines 357-371): the
scattered origin position (inverse-cube-root radial sampling) and the three
per-particle seeds.  Independent of the descriptor. -/
def explosionStep (M : JsMath) (r0 : RS) : (Vec3 × Vec3) × RS :=
  let spread : ℚ := 50
  let d1 := r0.next
  let spreadR := spread * M.cbrt d1.1
  let d2 := d1.2.next
  let spreadTheta := d2.1 * jsPI * 2
  let d3 := d2.2.next
  let spreadPhi := M.acos (2 * d3.1 - 1)
  let ip : Vec3 := (spreadR * M.sin spreadPhi * M.cos spreadTheta,
    spreadR * M.sin spreadPhi * M.sin spreadTheta,
    spreadR * M.cos spreadPhi)
  let d4 := d3.2.next
  let d5 := d4.2.next
  let d6 := d5.2.next
  ((ip, (d4.1, d5.1, d6.1)), d6.2)

/-- The universal explosion loop over all particles. -/
def explosionGen (M : JsMath) (count : ℕ) (r : RS) :
    List (Vec3 × Vec3) × RS :=
  mapRS (fun (_ : ℕ) => explosionStep M) (List.range count) r

/-- The four parallel arrays produced by one run of the generation memo. -/
structure ParticleSet where
  initialPositions : List Vec3
  targetPositions : List Vec3
  colors : List Color
  randoms : List Vec3
deriving DecidableEq, Repr

/-- The whole `useMemo([bodyConfig])` body (lines 46-379): target generation
for the descriptor followed by the explosion loop drawing from the same
random source where target generation left it. -/
def generate (M : JsMath) (cfg : CelestialBodyConfig) (count : ℕ) (r : RS) :
    ParticleSet :=
  let tg := targetGen M cfg count r
  let ex := explosionGen M count tg.2
  ⟨ex.1.map Prod.fst, tg.1.map Prod.fst, tg.1.map Prod.snd, ex.1.map Prod.snd⟩

/-- `count` (line 43). -/
def particleCount : ℕ := 64000

/-- `changeCelestialBody` (src/data.ts lines 167-176), generalized over the
catalog it draws from, with the do-while loop given an explicit fuel bound
and the draws read from stream `s` starting at cursor `k`; `none` models
a run that exhausts the fuel without leaving the loop. -/
def changeCelestialBody (catalog : List CelestialBodyConfig)
    (currentName : String) (s : ℕ → ℚ) (k : ℕ) :
    ℕ → Option CelestialBodyConfig
  | 0 => none
  | fuel + 1 =>
    let idx := (⌊s k * (catalog.length : ℚ)⌋).toNat
    match catalog.get? idx with
    | none => none
    | some b =>
      if b.name = currentName then
        changeCelestialBody catalog currentName s (k + 1) fuel
      else some b

/-- `noiseIntensity` (line 405): oscillation intensity as a function of the
body category and the expansion signal. -/
def noiseIntensity (ty : String) (expansion : ℚ) : ℚ :=
  expansion * (8/10) +
    (if ty = "star" ∧ expansion < 1/10 then 5/100 else 2/100)

/-- `lerpSpeed` (line 396). -/
def lerpSpeed : ℚ := 8/100

/-- One animation-driver update of one particle's live position (lines
398-414) at clock time `time`, for constant expansion `e`. -/
def frameStep (M : JsMath) (ty : String) (e : ℚ) (ip tp seed : Vec3)
    (time : ℚ) (x : Vec3) : Vec3 :=
  let tX := e * ip.1 + (1 - e) * tp.1
  let tY := e * ip.2.1 + (1 - e) * tp.2.1
  let tZ := e * ip.2.2 + (1 - e) * tp.2.2
  let ni := noiseIntensity ty e
  let nx := M.sin (time * (1/2) + seed.1 * 100) * ni * (2/10)
  let ny := M.cos (time * (3/10) + seed.2.1 * 100) * ni * (2/10)
  let nz := M.sin (time * (1/2) + seed.2.2 * 100) * ni * (2/10)
  (x.1 + (tX + nx - x.1) * lerpSpeed,
   x.2.1 + (tY + ny - x.2.1) * lerpSpeed,
   x.2.2 + (tZ + nz - x.2.2) * lerpSpeed)

/-- The live position of one particle after `t` frames sampled at clock
times `τ 0, τ 1, ...`, with the buffer initialized to the particle's origin
position (lines 384-388) and expansion held constant at `e`. -/
def liveTraj (M : JsMath) (ty : String) (e : ℚ) (ip tp seed : Vec3)
    (τ : ℕ → ℚ) : ℕ → Vec3
  | 0 => ip
  | t + 1 => frameStep M ty e ip tp seed (τ t) (liveTraj M ty e ip tp seed τ t)

/-! ### Helper lemmas about the palette sampler -/

/-- The clamp of the spec wording: `clamp(floor(idx), 0, len-1)` as a
natural index. -/
def clampIndex (len : ℕ) (q : ℚ) : ℕ := (max 0 (min ⌊q⌋ ((len : ℤ) - 1))).toNat

theorem clampIndex_lt (len : ℕ) (q : ℚ) (hlen : 0 < len) :
    clampIndex len q < len := by
  unfold clampIndex
  have h1 : min ⌊q⌋ ((len : ℤ) - 1) ≤ (len : ℤ) - 1 := min_le_right _ _
  omega

theorem getSafeColor_nonempty (P : List Color) (idx : JsFloat) (hP : P ≠ []) :
    getSafeColor P idx =
      P.getD (clampIndex P.length (if idx.isFinite then idx.val else 0))
        Color.white := by
  have hlen : 0 < P.length := List.length_pos.mpr hP
  have hne : P.isEmpty = false := by
    simpa [List.isEmpty_iff] using hP
  have hlt := clampIndex_lt P.length (if idx.isFinite then idx.val else 0) hlen
  unfold getSafeColor clampIndex
  rw [hne]
  simp only [Bool.false_eq_true, if_false]
  rw [List.get?_eq_get (by exact hlt), List.getD_eq_getElem _ _ (by exact hlt)]
  simp [List.get_eq_getElem]

theorem getSafeColor_mem (P : List Color) (idx : JsFloat) (hP : P ≠ []) :
    getSafeColor P idx ∈ P := by
  have hlen : 0 < P.length := List.length_pos.mpr hP
  rw [getSafeColor_nonempty P idx hP,
    List.getD_eq_getElem _ _ (clampIndex_lt P.length _ hlen)]
  exact List.getElem_mem _

theorem getSafeColor_empty (idx : JsFloat) :
    getSafeColor [] idx = Color.white := rfl

/-- C1: for every palette (including the empty one) and every float index
(including NaN and the infinities) the sampler returns a defined color:
white for the empty palette; entry `0` (the clamp of the substituted index
`0`) for a non-finite index; and the entry at `clamp(floor(idx), 0, len-1)`
for a finite index.  The function is total, so it never throws. -/
theorem C1_palette_sampler (P : List Color) (idx : JsFloat) :
    (P = [] → getSafeColor P idx = Color.white) ∧
    (P ≠ [] → idx.isFinite = false →
      getSafeColor P idx = P.getD 0 Color.white) ∧
    (∀ q : ℚ, idx = .finite q → P ≠ [] →
      ∃ j : ℕ, j < P.length ∧
        (j : ℤ) = max 0 (min ⌊q⌋ ((P.length : ℤ) - 1)) ∧
        getSafeColor P idx = P.getD j Color.white) := by
  refine ⟨?_, ?_, ?_⟩
  · rintro rfl; rfl
  · intro hP hfin
    rw [getSafeColor_nonempty P idx hP, hfin]
    simp only [Bool.false_eq_true, if_false]
    have : clampIndex P.length 0 = 0 := by
      have hlen : 0 < P.length := List.length_pos.mpr hP
      unfold clampIndex
      have : min (⌊(0 : ℚ)⌋) ((P.length : ℤ) - 1) = 0 := by
        rw [Int.floor_zero]
        omega
      rw [this]
      rfl
    rw [this]
  · rintro q rfl hP
    have hlen : 0 < P.length := List.length_pos.mpr hP
    refine ⟨clampIndex P.length q, clampIndex_lt P.length q hlen, ?_, ?_⟩
    · unfold clampIndex
      have h1 : min ⌊q⌋ ((P.length : ℤ) - 1) ≤ (P.length : ℤ) - 1 :=
        min_le_right _ _
      omega
    · exact getSafeColor_nonempty P (.finite q) hP

/-- Witness for C1: the sampler applied to a concrete two-color palette and
the non-finite index NaN gives the palette's first entry. -/
theorem C1_palette_sampler_witness :
    ([⟨0,0,0⟩, ⟨1,1,1⟩] : List Color) ≠ [] ∧
      JsFloat.isFinite .nan = false ∧
      getSafeColor [⟨0,0,0⟩, ⟨1,1,1⟩] .nan =
        ([⟨0,0,0⟩, ⟨1,1,1⟩] : List Color).getD 0 Color.white :=
  ⟨by decide, by decide,
    (C1_palette_sampler [⟨0,0,0⟩, ⟨1,1,1⟩] .nan).2.1 (by decide) (by decide)⟩

/-! ### Lemmas about the generation loops -/

theorem mapRS_length {α β : Type} (f : α → RS → β × RS) :
    ∀ (xs : List α) (r : RS), (mapRS f xs r).1.length = xs.length
  | [], _ => rfl
  | x :: xs, r => by
    simp [mapRS, mapRS_length f xs]

/-- The `j`-th output of a loop is its step function applied at index `j`
and at a random source with the same underlying stream. -/
theorem mapRS_get? {α β : Type} (f : α → RS → β × RS)
    (hf : ∀ a r, ((f a r).2).s = r.s) :
    ∀ (xs : List α) (r : RS) (j : ℕ) (hj : j < xs.length),
      ∃ r' : RS, r'.s = r.s ∧
        (mapRS f xs r).1.get? j = some (f (xs.get ⟨j, hj⟩) r').1
  | [], _, j, hj => absurd hj (by simp)
  | x :: xs, r, 0, _ => ⟨r, rfl, by simp [mapRS]⟩
  | x :: xs, r, j + 1, hj => by
    obtain ⟨r', hs, hget⟩ :=
      mapRS_get? f hf xs (f x r).2 j (by simpa using hj)
    exact ⟨r', by rw [hs, hf], by simpa [mapRS] using hget⟩

theorem ringStep_s (M : JsMath) (cfg : CelestialBodyConfig) (r : RS) :
    ((ringStep M cfg r).2).s = r.s := by
  unfold ringStep RS.next
  rfl

theorem bodyStep_s (M : JsMath) (cfg : CelestialBodyConfig) (r : RS) :
    ((bodyStep M cfg r).2).s = r.s := by
  unfold bodyStep RS.next
  dsimp only
  split_ifs <;> rfl

theorem planetStep_s (M : JsMath) (cfg : CelestialBodyConfig) (bpc i : ℕ)
    (r : RS) : ((planetStep M cfg bpc i r).2).s = r.s := by
  unfold planetStep
  split_ifs
  · exact ringStep_s M cfg r
  · exact bodyStep_s M cfg r

/-- The single-planet branch: particle `j` is `planetStep` at index `j`. -/
theorem targetGen_planet_get? (M : JsMath) (cfg : CelestialBodyConfig)
    (n : ℕ) (r : RS) (hname : cfg.name ≠ "Sun") (j : ℕ) (hj : j < n) :
    ∃ r' : RS, r'.s = r.s ∧
      (targetGen M cfg n r).1.get? j =
        some (planetStep M cfg (bodyParticleCount cfg n) j r').1 := by
  unfold targetGen
  rw [if_neg hname]
  obtain ⟨r', hs, hget⟩ :=
    mapRS_get? (planetStep M cfg (bodyParticleCount cfg n))
      (planetStep_s M cfg (bodyParticleCount cfg n)) (List.range n) r j
      (by simpa using hj)
  exact ⟨r', hs, by simpa [List.get_range] using hget⟩

theorem targetGen_planet_length (M : JsMath) (cfg : CelestialBodyConfig)
    (n : ℕ) (r : RS) (hname : cfg.name ≠ "Sun") :
    (targetGen M cfg n r).1.length = n := by
  unfold targetGen
  rw [if_neg hname]
  simp [mapRS_length]

/-- Any non-Earth body-sphere particle lies exactly on the sphere of the
descriptor's radius (Earth cloud particles are pushed out by 4%). -/
theorem bodyStep_normSq (M : JsMath) (cfg : CelestialBodyConfig) (r : RS)
    (hM : GoodMath M) (hname : cfg.name ≠ "Earth") :
    normSq (bodyStep M cfg r).1.1 = cfg.radius ^ 2 := by
  have hθ := hM (r.s r.pos * jsPI * 2)
  have hφ := hM (M.acos (2 * r.s (r.pos + 1) - 1))
  unfold bodyStep RS.next normSq
  dsimp only
  rw [if_neg hname]
  split_ifs <;>
    · dsimp only
      linear_combination
        (cfg.radius ^ 2 * M.sin (M.acos (2 * r.s (r.pos + 1) - 1)) ^ 2) * hθ +
          cfg.radius ^ 2 * hφ

/-- Any non-Earth body-sphere particle's color is drawn from the body
palette (the palette being non-empty). -/
theorem bodyStep_color_mem (M : JsMath) (cfg : CelestialBodyConfig) (r : RS)
    (hname : cfg.name ≠ "Earth") (hP : cfg.colors ≠ []) :
    (bodyStep M cfg r).1.2 ∈ cfg.colors := by
  unfold bodyStep RS.next
  dsimp only
  rw [if_neg hname]
  split_ifs <;>
    · dsimp only
      exact getSafeColor_mem _ _ hP

/-- The test descriptor of the end-to-end property: no special-cased name,
radius 2, black-and-white palette, no rings, noisy texture. -/
def testPlanet : CelestialBodyConfig :=
  ⟨"TestPlanet", "planet", 2, [⟨0,0,0⟩, ⟨1,1,1⟩], false, [], "noise"⟩

/-- C6: for the descriptor TestPlanet (radius 2, palette exactly black and
white, no rings, noisy texture, a name with no special-cased branch) every
generated target position has squared norm exactly `2^2 = 4` — so Euclidean
norm exactly 2, stronger than "within floating tolerance" since the
embedding is exact — and every generated color is one of the two palette
entries.  `n` ranges over particle counts, covering the fixed `count =
64000` of the source. -/
theorem C6_testplanet_sphere_and_palette (M : JsMath) (n : ℕ) (r : RS)
    (i : ℕ) (hM : GoodMath M) (hi : i < n) :
    ∃ pc : Vec3 × Color,
      (targetGen M testPlanet n r).1.get? i = some pc ∧
        normSq pc.1 = 4 ∧
        (pc.2 = ⟨0,0,0⟩ ∨ pc.2 = ⟨1,1,1⟩) := by
  obtain ⟨r', -, hget⟩ :=
    targetGen_planet_get? M testPlanet n r (by decide) i hi
  have hstep : planetStep M testPlanet (bodyParticleCount testPlanet n) i r' =
      bodyStep M testPlanet r' := by
    unfold planetStep
    rw [if_neg]
    rintro ⟨-, h⟩
    exact absurd h (by decide)
  rw [hstep] at hget
  refine ⟨_, hget, ?_, ?_⟩
  · have h := bodyStep_normSq M testPlanet r' hM (by decide)
    rw [h]
    norm_num [testPlanet]
  · have h := bodyStep_color_mem M testPlanet r' (by decide) (by decide)
    simpa [testPlanet] using h

/-- A trivial model of the abstract math library satisfying `GoodMath`. -/
def trigZero : JsMath :=
  ⟨fun _ => 0, fun _ => 1, fun _ => 0, fun _ _ => 0, fun q => q⟩

theorem trigZero_good : GoodMath trigZero := by
  intro x
  norm_num [trigZero]

/-- A constant-zero random stream (all draws `0`, a legal draw value). -/
def zeroRS : RS := ⟨fun _ => 0, 0⟩

/-- Witness for C6 at the trivial math model, one particle, index 0. -/
theorem C6_testplanet_sphere_and_palette_witness :
    ∃ pc : Vec3 × Color,
      (targetGen trigZero testPlanet 1 zeroRS).1.get? 0 = some pc ∧
        normSq pc.1 = 4 ∧
        (pc.2 = ⟨0,0,0⟩ ∨ pc.2 = ⟨1,1,1⟩) :=
  C6_testplanet_sphere_and_palette trigZero 1 zeroRS 0 trigZero_good
    (by decide)

/-- For a radius-3 descriptor, a ring particle's planar squared radial
distance lies in `[(3*1.3)^2, (3*2.2)^2]` and its vertical offset has
magnitude at most `0.05`. -/
theorem ringStep_bounds (M : JsMath) (cfg : CelestialBodyConfig) (r : RS)
    (hM : GoodMath M) (hs : UnitStream r.s) (hrad : cfg.radius = 3) :
    ((3 : ℚ) * (13/10)) ^ 2 ≤
        ((ringStep M cfg r).1.1).1 ^ 2 + ((ringStep M cfg r).1.1).2.2 ^ 2 ∧
      ((ringStep M cfg r).1.1).1 ^ 2 + ((ringStep M cfg r).1.1).2.2 ^ 2 ≤
        ((3 : ℚ) * (22/10)) ^ 2 ∧
      |((ringStep M cfg r).1.1).2.1| ≤ 5/100 := by
  obtain ⟨h10, h11⟩ := hs r.pos
  obtain ⟨h30, h31⟩ := hs (r.pos + 1 + 1)
  have hθ := hM (r.s (r.pos + 1) * jsPI * 2)
  unfold ringStep RS.next
  dsimp only
  rw [hrad]
  set u1 := r.s r.pos with hu1
  set u3 := r.s (r.pos + 1 + 1) with hu3
  set cθ := M.cos (r.s (r.pos + 1) * jsPI * 2) with hcθ
  set sθ := M.sin (r.s (r.pos + 1) * jsPI * 2) with hsθ
  set rr : ℚ := 3 * (13/10) + u1 * (3 * (22/10) - 3 * (13/10)) with hrr
  have key : (rr * cθ) ^ 2 + (rr * sθ) ^ 2 = rr ^ 2 := by
    linear_combination rr ^ 2 * hθ
  refine ⟨?_, ?_, ?_⟩
  · rw [key]
    nlinarith [h10, h11]
  · rw [key]
    nlinarith [h10, h11]
  · rw [abs_le]
    constructor <;> nlinarith [h30, h31]

/-- C7: for every single-body descriptor (name other than the composite
"Sun") with rings and radius 3, every ring-allocated particle (index at
least `bodyParticleCount`) has planar radial distance between `3*1.3` and
`3*2.2` (stated on squares to avoid square roots) and vertical offset of
magnitude at most `0.05`.  `n` ranges over particle counts, covering the
fixed `count = 64000` of the source. -/
theorem C7_ring_annulus (M : JsMath) (cfg : CelestialBodyConfig) (n : ℕ)
    (r : RS) (i : ℕ) (hM : GoodMath M) (hs : UnitStream r.s)
    (hname : cfg.name ≠ "Sun") (hrings : cfg.hasRings = true)
    (hrad : cfg.radius = 3) (hbpc : bodyParticleCount cfg n ≤ i)
    (hi : i < n) :
    ∃ pc : Vec3 × Color,
      (targetGen M cfg n r).1.get? i = some pc ∧
        ((3 : ℚ) * (13/10)) ^ 2 ≤ pc.1.1 ^ 2 + pc.1.2.2 ^ 2 ∧
        pc.1.1 ^ 2 + pc.1.2.2 ^ 2 ≤ ((3 : ℚ) * (22/10)) ^ 2 ∧
        |pc.1.2.1| ≤ 5/100 := by
  obtain ⟨r', hseq, hget⟩ := targetGen_planet_get? M cfg n r hname i hi
  have hstep : planetStep M cfg (bodyParticleCount cfg n) i r' =
      ringStep M cfg r' := by
    unfold planetStep
    rw [if_pos ⟨hbpc, hrings⟩]
  rw [hstep] at hget
  have hs' : UnitStream r'.s := by rw [hseq]; exact hs
  exact ⟨_, hget, ringStep_bounds M cfg r' hM hs' hrad⟩

/-- A concrete radius-3 ringed descriptor for the C7 witness. -/
def ringedTest : CelestialBodyConfig :=
  ⟨"Ringed", "planet", 3, [⟨1,1,1⟩], true, [⟨1,0,0⟩], "noise"⟩

theorem zeroRS_unit : UnitStream zeroRS.s := fun _ => ⟨le_refl 0, by norm_num [zeroRS]⟩

/-- Witness for C7: three particles, ring particle index 2. -/
theorem C7_ring_annulus_witness :
    ∃ pc : Vec3 × Color,
      (targetGen trigZero ringedTest 3 zeroRS).1.get? 2 = some pc ∧
        ((3 : ℚ) * (13/10)) ^ 2 ≤ pc.1.1 ^ 2 + pc.1.2.2 ^ 2 ∧
        pc.1.1 ^ 2 + pc.1.2.2 ^ 2 ≤ ((3 : ℚ) * (22/10)) ^ 2 ∧
        |pc.1.2.1| ≤ 5/100 :=
  C7_ring_annulus trigZero ringedTest 3 zeroRS 2 trigZero_good zeroRS_unit
    (by decide) (by decide) (by decide) (by decide) (by decide)

/-- With an empty ring palette the ring branch still runs; its color is the
sampler's white fallback, darkened to `0.2 * white` in the Cassini gap. -/
theorem ringStep_color_empty (M : JsMath) (cfg : CelestialBodyConfig)
    (r : RS) (hempty : cfg.ringColors = []) :
    (ringStep M cfg r).1.2 = Color.white ∨
      (ringStep M cfg r).1.2 = Color.white.multiplyScalar (2/10) := by
  unfold ringStep
  dsimp only
  rw [hempty]
  split_ifs <;> first
  | exact Or.inl rfl
  | exact Or.inr rfl

/-- A ringed descriptor with an empty ring palette (the degenerate input of
the claim). -/
def ghostRings : CelestialBodyConfig :=
  ⟨"GhostRings", "planet", 3, [⟨1/2, 1/2, 1/2⟩], true, [], "noise"⟩

/-- C3 counterexample: for a descriptor with `hasRings` and an empty ring
palette the generator does NOT skip the ring allocation: `ringParticleCount`
tests only `hasRings`, so at the source's `count = 64000` it still assigns
`22400` particles to the ring branch instead of `0`. -/
theorem C3_counterexample :
    ghostRings.hasRings = true ∧ ghostRings.ringColors = [] ∧
      ringParticleCount ghostRings particleCount = 22400 ∧
      ¬ ringParticleCount ghostRings particleCount = 0 := by decide

/-- C3 (amended): for every descriptor with `hasRings = true` and an empty
ring palette, generation absorbs the degenerate input locally and never
raises an error — it produces all `n` particles — but it does NOT skip the
ring allocation: every ring-allocated particle is still generated by the
ring branch and receives the sampler's safe default, white (darkened to
`0.2 * white` inside the Cassini-gap band). -/
theorem C3_empty_ring_palette_degrades (M : JsMath)
    (cfg : CelestialBodyConfig) (n : ℕ) (r : RS) (i : ℕ)
    (hname : cfg.name ≠ "Sun") (hrings : cfg.hasRings = true)
    (hempty : cfg.ringColors = []) (hbpc : bodyParticleCount cfg n ≤ i)
    (hi : i < n) :
    (targetGen M cfg n r).1.length = n ∧
      ∃ pc : Vec3 × Color,
        (targetGen M cfg n r).1.get? i = some pc ∧
          (pc.2 = Color.white ∨ pc.2 = Color.white.multiplyScalar (2/10)) := by
  refine ⟨targetGen_planet_length M cfg n r hname, ?_⟩
  obtain ⟨r', hseq, hget⟩ := targetGen_planet_get? M cfg n r hname i hi
  have hstep : planetStep M cfg (bodyParticleCount cfg n) i r' =
      ringStep M cfg r' := by
    unfold planetStep
    rw [if_pos ⟨hbpc, hrings⟩]
  rw [hstep] at hget
  exact ⟨_, hget, ringStep_color_empty M cfg r' hempty⟩

/-- Witness for the amended C3 at a concrete descriptor, three particles,
ring particle index 2. -/
theorem C3_empty_ring_palette_degrades_witness :
    (targetGen trigZero ghostRings 3 zeroRS).1.length = 3 ∧
      ∃ pc : Vec3 × Color,
        (targetGen trigZero ghostRings 3 zeroRS).1.get? 2 = some pc ∧
          (pc.2 = Color.white ∨ pc.2 = Color.white.multiplyScalar (2/10)) :=
  C3_empty_ring_palette_degrades trigZero ghostRings 3 zeroRS 2 (by decide)
    (by decide) (by decide) (by decide) (by decide)

/-- The stream `1/(k+2)`: pairwise-distinct legal draws. -/
def seqRS : RS := ⟨fun k => 1 / ((k : ℚ) + 2), 0⟩

theorem seqRS_unit : UnitStream seqRS.s := by
  intro n
  unfold seqRS
  constructor
  · positivity
  · rw [div_lt_one (by positivity)]
    have : (0 : ℚ) ≤ (n : ℚ) := Nat.cast_nonneg n
    linarith

/-- C2 counterexample: regenerating the ParticleSet for a different
descriptor changes the per-particle seed array (and with it the origin
draws), on a legal draw stream and a `GoodMath` model: Mercury's target
generation consumes 6 draws for 3 particles while Saturn's (one ring
particle) consumes 7, so the explosion loop reads its seed draws from
different stream positions and the regenerated seed array differs. -/
theorem C2_counterexample :
    GoodMath trigZero ∧ UnitStream seqRS.s ∧
      (targetGen trigZero (CELESTIAL_BODIES.getD 1 default) 3 seqRS).2.pos = 6 ∧
      (targetGen trigZero (CELESTIAL_BODIES.getD 7 default) 3 seqRS).2.pos = 7 ∧
      (generate trigZero (CELESTIAL_BODIES.getD 1 default) 3 seqRS).randoms ≠
        (generate trigZero (CELESTIAL_BODIES.getD 7 default) 3 seqRS).randoms := by
  refine ⟨trigZero_good, seqRS_unit, rfl, rfl, ?_⟩
  intro h
  have hm : (generate trigZero (CELESTIAL_BODIES.getD 1 default) 3
        seqRS).randoms.get? 0 = some (seqRS.s 9, seqRS.s 10, seqRS.s 11) := rfl
  have hsat : (generate trigZero (CELESTIAL_BODIES.getD 7 default) 3
        seqRS).randoms.get? 0 = some (seqRS.s 10, seqRS.s 11, seqRS.s 12) := rfl
  rw [h, hsat] at hm
  simp only [Option.some.injEq, Prod.mk.injEq] at hm
  have h1 := hm.1
  norm_num [seqRS] at h1

/-- C2 (amended): the origin cloud and the seed array are recomputed inside
every per-descriptor rebuild — both are produced by the descriptor-blind
explosion loop, but that loop draws fresh randoms from wherever target
generation (which consumes a descriptor-dependent number of draws) left the
stream, so they are regenerated, not reused, on each body change. -/
theorem C2_explosion_regenerated (M : JsMath) (cfg : CelestialBodyConfig)
    (n : ℕ) (r : RS) :
    (generate M cfg n r).initialPositions =
        (explosionGen M n (targetGen M cfg n r).2).1.map Prod.fst ∧
      (generate M cfg n r).randoms =
        (explosionGen M n (targetGen M cfg n r).2).1.map Prod.snd :=
  ⟨rfl, rfl⟩

/-! ### The body selection policy -/

/-- The name of the catalog entry a draw index selects. -/
def nameAt (catalog : List CelestialBodyConfig) (i : ℕ) : String :=
  (catalog.getD i default).name

theorem draw_index_lt (catalog : List CelestialBodyConfig) (u : ℚ)
    (h0 : 0 ≤ u) (h1 : u < 1) (hlen : 0 < catalog.length) :
    (⌊u * (catalog.length : ℚ)⌋).toNat < catalog.length := by
  have hq : (0 : ℚ) < (catalog.length : ℚ) := by exact_mod_cast hlen
  have hf : ⌊u * (catalog.length : ℚ)⌋ < (catalog.length : ℤ) := by
    rw [Int.floor_lt]
    push_cast
    nlinarith [h1, h0, hq]
  omega

theorem getq_getD (catalog : List CelestialBodyConfig) (i : ℕ)
    (hi : i < catalog.length) :
    catalog.get? i = some (catalog.getD i default) := by
  rw [List.getD_eq_getElem _ _ hi, List.get?_eq_getElem?,
    List.getElem?_eq_getElem hi]

/-- C4: for every catalog of size at least 2 containing the current body,
and any run of legal draws among which some draw (within the fuel bound)
selects an entry named differently from the current body, a single call to
the selection policy returns a descriptor whose name differs from the
current body's name.  (The do-while loop draws with replacement, so SOME
differing draw must occur for the call to return at all; uniform randomness
makes that almost sure, and the returned descriptor then never matches the
current one by name.) -/
theorem C4_selection_avoids_current (catalog : List CelestialBodyConfig)
    (current : CelestialBodyConfig) (s : ℕ → ℚ) (fuel k : ℕ)
    (hlen : 2 ≤ catalog.length) (hcur : current ∈ catalog)
    (hs : UnitStream s)
    (hhit : ∃ j, j < fuel ∧
      nameAt catalog (⌊s (k + j) * (catalog.length : ℚ)⌋).toNat ≠
        current.name) :
    ∃ b, changeCelestialBody catalog current.name s k fuel = some b ∧
      b.name ≠ current.name := by
  induction fuel generalizing k with
  | zero =>
    obtain ⟨j, hj, -⟩ := hhit
    omega
  | succ fuel ih =>
    obtain ⟨j, hj, hjn⟩ := hhit
    have hpos : 0 < catalog.length := by omega
    have hidx := draw_index_lt catalog (s k) (hs k).1 (hs k).2 hpos
    have hget := getq_getD catalog (⌊s k * (catalog.length : ℚ)⌋).toNat hidx
    by_cases hbn :
        (catalog.getD (⌊s k * (catalog.length : ℚ)⌋).toNat default).name =
          current.name
    · have hrec : changeCelestialBody catalog current.name s k (fuel + 1) =
          changeCelestialBody catalog current.name s (k + 1) fuel := by
        simp only [changeCelestialBody]
        rw [hget]
        dsimp only
        rw [if_pos hbn]
      rw [hrec]
      apply ih
      rcases j with _ | j'
      · exact absurd (by rw [Nat.add_zero]; exact hbn) hjn
      · refine ⟨j', by omega, ?_⟩
        have hk : k + (j' + 1) = k + 1 + j' := by omega
        rw [hk] at hjn
        exact hjn
    · refine ⟨catalog.getD (⌊s k * (catalog.length : ℚ)⌋).toNat default,
        ?_, hbn⟩
      simp only [changeCelestialBody]
      rw [hget]
      dsimp only
      rw [if_neg hbn]

/-- Witness for C4: the real catalog (11 bodies), current body Sun, a
constant stream of draws 1/2; the first draw selects index 5 (Mars). -/
theorem C4_selection_avoids_current_witness :
    ∃ b, changeCelestialBody CELESTIAL_BODIES
        (CELESTIAL_BODIES.getD 0 default).name (fun _ => 1/2) 0 1 = some b ∧
      b.name ≠ (CELESTIAL_BODIES.getD 0 default).name := by
  apply C4_selection_avoids_current CELESTIAL_BODIES
    (CELESTIAL_BODIES.getD 0 default) (fun _ => 1/2) 1 0
  · norm_num [CELESTIAL_BODIES]
  · simp [CELESTIAL_BODIES]
  · intro n
    norm_num
  · refine ⟨0, by omega, ?_⟩
    have h5 : (⌊(fun (_ : ℕ) => (1/2 : ℚ)) (0 + 0) *
        (CELESTIAL_BODIES.length : ℚ)⌋).toNat = 5 := by
      norm_num [CELESTIAL_BODIES]
      rfl
    rw [h5]
    decide

/-- Unfolding of one do-while iteration of the selection policy. -/
theorem changeCelestialBody_succ (catalog : List CelestialBodyConfig)
    (nm : String) (s : ℕ → ℚ) (k fuel : ℕ) :
    changeCelestialBody catalog nm s k (fuel + 1) =
      match catalog.get? (⌊s k * (catalog.length : ℚ)⌋).toNat with
      | none => none
      | some b =>
        if b.name = nm then changeCelestialBody catalog nm s (k + 1) fuel
        else some b := rfl

/-- C5 (amended): the selection policy's re-draw loop is NOT bounded by the
catalog size (it redraws with replacement, see the counterexample) and does
NOT terminate for every catalog: for a catalog of size 1 whose only entry
is the current body, every draw selects the current body again, so the loop
never exits — the fueled model returns `none` for every fuel bound and
every draw stream. -/
theorem C5_single_element_never_terminates (c : CelestialBodyConfig)
    (s : ℕ → ℚ) :
    ∀ fuel k, changeCelestialBody [c] c.name s k fuel = none := by
  intro fuel
  induction fuel with
  | zero => intro k; rfl
  | succ fuel ih =>
    intro k
    rw [changeCelestialBody_succ]
    rcases hn : (⌊s k * (([c] : List CelestialBodyConfig).length : ℚ)⌋).toNat
      with _ | m
    · dsimp only [List.get?]
      rw [if_pos rfl]
      exact ih (k + 1)
    · rfl

/-- Two distinct minimal descriptors for the C5 counterexample. -/
def cfgAlpha : CelestialBodyConfig :=
  ⟨"Alpha", "planet", 1, [⟨0,0,0⟩], false, [], "noise"⟩

def cfgBeta : CelestialBodyConfig :=
  ⟨"Beta", "planet", 1, [⟨1,1,1⟩], false, [], "noise"⟩

/-- The draw stream 0, 0, 3/4, 3/4, ... -/
def drawAAB : ℕ → ℚ := fun k => if k < 2 then 0 else 3/4

/-- C5 counterexample: on the size-2 catalog [Alpha, Beta] with current
body Alpha and draws 0, 0, 3/4 the re-draw loop needs 3 draws — more than
the catalog size 2, so the loop is not bounded by the catalog size: with
fuel 2 it has not terminated, with fuel 3 it returns Beta. -/
theorem C5_counterexample :
    ([cfgAlpha, cfgBeta] : List CelestialBodyConfig).length = 2 ∧
      changeCelestialBody [cfgAlpha, cfgBeta] cfgAlpha.name drawAAB 0 2 =
        none ∧
      changeCelestialBody [cfgAlpha, cfgBeta] cfgAlpha.name drawAAB 0 3 =
        some cfgBeta := by
  have h0 : (⌊drawAAB 0 *
      (([cfgAlpha, cfgBeta] : List CelestialBodyConfig).length : ℚ)⌋).toNat
        = 0 := by
    norm_num [drawAAB]
  have h1 : (⌊drawAAB 1 *
      (([cfgAlpha, cfgBeta] : List CelestialBodyConfig).length : ℚ)⌋).toNat
        = 0 := by
    norm_num [drawAAB]
  have h2 : (⌊drawAAB 2 *
      (([cfgAlpha, cfgBeta] : List CelestialBodyConfig).length : ℚ)⌋).toNat
        = 1 := by
    norm_num [drawAAB]
  refine ⟨rfl, ?_, ?_⟩
  · rw [show (2 : ℕ) = 1 + 1 from rfl, changeCelestialBody_succ, h0]
    dsimp only [List.get?]
    rw [if_pos rfl]
    rw [show (1 : ℕ) = 0 + 1 from rfl, changeCelestialBody_succ, h1]
    dsimp only [List.get?]
    rw [if_pos rfl]
    rfl
  · rw [show (3 : ℕ) = 2 + 1 from rfl, changeCelestialBody_succ, h0]
    dsimp only [List.get?]
    rw [if_pos rfl]
    rw [show (2 : ℕ) = 1 + 1 from rfl, changeCelestialBody_succ, h1]
    dsimp only [List.get?]
    rw [if_pos rfl]
    rw [show (1 : ℕ) = 0 + 1 from rfl, changeCelestialBody_succ, h2]
    dsimp only [List.get?]
    rw [if_neg (by decide)]

/-! ### The animation driver's oscillation intensity -/

/-- C8 counterexample: for the star category the intensity is NOT monotone
in expansion: at expansion 0.09 (inside the near-contraction bump window)
it is 0.122, at expansion 0.1 it drops to 0.10. -/
theorem C8_counterexample :
    (0 : ℚ) ≤ 9/100 ∧ (9/100 : ℚ) < 1/10 ∧ (1/10 : ℚ) ≤ 1 ∧
      noiseIntensity "star" (1/10) < noiseIntensity "star" (9/100) := by
  refine ⟨by norm_num, by norm_num, by norm_num, ?_⟩
  norm_num [noiseIntensity]

/-- C8 (amended): for every non-star category the per-frame oscillation
intensity is monotone in expansion; for every category it has the positive
floor 0.02 at every expansion (in particular at 0); and for the star
category there is an extra floor bump near full contraction — intensity is
`0.8 e + 0.05` for expansion below 0.1 — which makes the star intensity
NON-monotone across the 0.1 boundary (see the counterexample). -/
theorem C8_intensity_floor_and_monotonicity (ty : String) (e1 e2 e : ℚ) :
    (ty ≠ "star" → 0 ≤ e1 → e1 ≤ e2 →
      noiseIntensity ty e1 ≤ noiseIntensity ty e2) ∧
    (0 ≤ e → 1/50 ≤ noiseIntensity ty e) ∧
    (ty = "star" → 0 ≤ e → e < 1/10 →
      noiseIntensity ty e = e * (8/10) + 1/20) := by
  refine ⟨?_, ?_, ?_⟩
  · intro hty h0 h12
    unfold noiseIntensity
    rw [if_neg (by rintro ⟨h, -⟩; exact hty h),
      if_neg (by rintro ⟨h, -⟩; exact hty h)]
    linarith
  · intro h0
    unfold noiseIntensity
    split_ifs <;> linarith
  · intro hty h0 hlt
    unfold noiseIntensity
    rw [if_pos ⟨hty, hlt⟩]
    norm_num

/-- Witness for the amended C8 at concrete categories and expansions. -/
theorem C8_intensity_floor_and_monotonicity_witness :
    noiseIntensity "planet" 0 ≤ noiseIntensity "planet" 1 ∧
      1/50 ≤ noiseIntensity "moon" (1/2) ∧
      noiseIntensity "star" 0 = 0 * (8/10) + 1/20 :=
  ⟨(C8_intensity_floor_and_monotonicity "planet" 0 1 0).1 (by decide)
      (by norm_num) (by norm_num),
    (C8_intensity_floor_and_monotonicity "moon" 0 0 (1/2)).2.1 (by norm_num),
    (C8_intensity_floor_and_monotonicity "star" 0 0 0).2.2 rfl (by norm_num)
      (by norm_num)⟩

/-! ### The animation driver's per-frame update -/

/-- One-dimensional form of the driver's exponential-smoothing update:
`x += (T + n_t - x) * lerpSpeed` with constant blend target `T` and jitter
sequence `n`. -/
def scalarTraj (T : ℚ) (nseq : ℕ → ℚ) (x0 : ℚ) : ℕ → ℚ
  | 0 => x0
  | t + 1 => scalarTraj T nseq x0 t +
      (T + nseq t - scalarTraj T nseq x0 t) * lerpSpeed

theorem liveTraj_fst (M : JsMath) (ty : String) (e : ℚ) (ip tp seed : Vec3)
    (τ : ℕ → ℚ) : ∀ t,
    (liveTraj M ty e ip tp seed τ t).1 =
      scalarTraj (e * ip.1 + (1 - e) * tp.1)
        (fun t => M.sin (τ t * (1/2) + seed.1 * 100) *
          noiseIntensity ty e * (2/10)) ip.1 t
  | 0 => rfl
  | t + 1 => by
    have ih := liveTraj_fst M ty e ip tp seed τ t
    simp only [liveTraj, frameStep, scalarTraj]
    rw [ih]

theorem liveTraj_snd1 (M : JsMath) (ty : String) (e : ℚ) (ip tp seed : Vec3)
    (τ : ℕ → ℚ) : ∀ t,
    (liveTraj M ty e ip tp seed τ t).2.1 =
      scalarTraj (e * ip.2.1 + (1 - e) * tp.2.1)
        (fun t => M.cos (τ t * (3/10) + seed.2.1 * 100) *
          noiseIntensity ty e * (2/10)) ip.2.1 t
  | 0 => rfl
  | t + 1 => by
    have ih := liveTraj_snd1 M ty e ip tp seed τ t
    simp only [liveTraj, frameStep, scalarTraj]
    rw [ih]

theorem liveTraj_snd2 (M : JsMath) (ty : String) (e : ℚ) (ip tp seed : Vec3)
    (τ : ℕ → ℚ) : ∀ t,
    (liveTraj M ty e ip tp seed τ t).2.2 =
      scalarTraj (e * ip.2.2 + (1 - e) * tp.2.2)
        (fun t => M.sin (τ t * (1/2) + seed.2.2 * 100) *
          noiseIntensity ty e * (2/10)) ip.2.2 t
  | 0 => rfl
  | t + 1 => by
    have ih := liveTraj_snd2 M ty e ip tp seed τ t
    simp only [liveTraj, frameStep, scalarTraj]
    rw [ih]

/-- Geometric-decay bound for the smoothing update under bounded jitter. -/
theorem scalarTraj_bound (T x0 A : ℚ) (nseq : ℕ → ℚ)
    (hA : ∀ t, |nseq t| ≤ A) :
    ∀ t, |scalarTraj T nseq x0 t - T| ≤ (23/25) ^ t * |x0 - T| + A
  | 0 => by
    have hA0 : 0 ≤ A := le_trans (abs_nonneg _) (hA 0)
    simp [scalarTraj]
    linarith
  | t + 1 => by
    have ih := scalarTraj_bound T x0 A nseq hA t
    have hAt := hA t
    have hstep : scalarTraj T nseq x0 (t + 1) - T =
        (scalarTraj T nseq x0 t - T) * (23/25) + nseq t * (2/25) := by
      simp only [scalarTraj, lerpSpeed]
      ring
    rw [hstep]
    calc |(scalarTraj T nseq x0 t - T) * (23/25) + nseq t * (2/25)|
        ≤ |(scalarTraj T nseq x0 t - T) * (23/25)| + |nseq t * (2/25)| :=
          abs_add _ _
      _ = |scalarTraj T nseq x0 t - T| * (23/25) + |nseq t| * (2/25) := by
          rw [abs_mul, abs_mul,
            abs_of_pos (by norm_num : (0:ℚ) < 23/25),
            abs_of_pos (by norm_num : (0:ℚ) < 2/25)]
      _ ≤ ((23/25) ^ t * |x0 - T| + A) * (23/25) + A * (2/25) := by
          linarith
      _ = (23/25) ^ (t + 1) * |x0 - T| + A := by ring

theorem pow_mul_le_eventually (c ε : ℚ) (hc : 0 ≤ c) (hε : 0 < ε) :
    ∃ N, ∀ t, N ≤ t → (23/25 : ℚ) ^ t * c ≤ ε := by
  rcases eq_or_lt_of_le hc with hc0 | hcpos
  · exact ⟨0, fun t _ => by rw [← hc0]; simpa using le_of_lt hε⟩
  · obtain ⟨N, hN⟩ := exists_pow_lt_of_lt_one (div_pos hε hcpos)
      (by norm_num : (23/25 : ℚ) < 1)
    refine ⟨N, fun t ht => ?_⟩
    have h1 : (23/25 : ℚ) ^ t ≤ (23/25) ^ N :=
      pow_le_pow_of_le_one (by norm_num) (by norm_num) ht
    have h2 : (23/25 : ℚ) ^ t < ε / c := lt_of_le_of_lt h1 hN
    have h3 : (23/25 : ℚ) ^ t * c ≤ (ε / c) * c := by nlinarith
    calc (23/25 : ℚ) ^ t * c ≤ (ε / c) * c := h3
      _ = ε := div_mul_cancel₀ ε (ne_of_gt hcpos)

/-- Under bounded jitter the smoothed value eventually stays within the
jitter bound plus any slack of the blend target. -/
theorem scalar_converges (T x0 A ε : ℚ) (nseq : ℕ → ℚ)
    (hA : ∀ t, |nseq t| ≤ A) (hε : 0 < ε) :
    ∃ N, ∀ t, N ≤ t → |scalarTraj T nseq x0 t - T| ≤ A + ε := by
  obtain ⟨N, hN⟩ := pow_mul_le_eventually |x0 - T| ε (abs_nonneg _) hε
  refine ⟨N, fun t ht => ?_⟩
  have h1 := scalarTraj_bound T x0 A nseq hA t
  have h2 := hN t ht
  linarith

theorem goodMath_abs_sin (M : JsMath) (hM : GoodMath M) (z : ℚ) :
    |M.sin z| ≤ 1 := by
  have h := hM z
  nlinarith [sq_abs (M.sin z), abs_nonneg (M.sin z), sq_nonneg (M.cos z)]

theorem goodMath_abs_cos (M : JsMath) (hM : GoodMath M) (z : ℚ) :
    |M.cos z| ≤ 1 := by
  have h := hM z
  nlinarith [sq_abs (M.cos z), abs_nonneg (M.cos z), sq_nonneg (M.sin z)]

theorem noiseIntensity_nonneg (ty : String) (e : ℚ) (he : 0 ≤ e) :
    0 ≤ noiseIntensity ty e := by
  unfold noiseIntensity
  split_ifs <;> linarith

/-- C9 (amended): with expansion held at any constant `e ≥ 0`, each
component of the live position converges to — and remains — within
`noiseIntensity(category, e) * 0.2 + ε` of the blend point
`e * origin + (1-e) * target`, for every slack `ε > 0`.  At `e = 1` the
blend point is the origin position but the jitter amplitude is maximal
(`0.164` for non-star bodies), so convergence is to a jitter-bounded
neighborhood of the origin, not within arbitrary epsilon (see the
counterexample); at `e = 0` it is the target position plus a term bounded
by the jitter amplitude (`0.004`, star `0.01`), as the claim states. -/
theorem C9_convergence (M : JsMath) (ty : String) (e : ℚ) (ip tp seed : Vec3)
    (τ : ℕ → ℚ) (ε : ℚ) (hM : GoodMath M) (he0 : 0 ≤ e) (hε : 0 < ε) :
    ∃ N, ∀ t, N ≤ t →
      |(liveTraj M ty e ip tp seed τ t).1 -
          (e * ip.1 + (1 - e) * tp.1)| ≤
        noiseIntensity ty e * (2/10) + ε ∧
      |(liveTraj M ty e ip tp seed τ t).2.1 -
          (e * ip.2.1 + (1 - e) * tp.2.1)| ≤
        noiseIntensity ty e * (2/10) + ε ∧
      |(liveTraj M ty e ip tp seed τ t).2.2 -
          (e * ip.2.2 + (1 - e) * tp.2.2)| ≤
        noiseIntensity ty e * (2/10) + ε := by
  have hni := noiseIntensity_nonneg ty e he0
  have hbsin : ∀ z : ℚ,
      |M.sin z * noiseIntensity ty e * (2/10)| ≤
        noiseIntensity ty e * (2/10) := by
    intro z
    rw [abs_mul, abs_mul, abs_of_nonneg hni,
      abs_of_pos (by norm_num : (0:ℚ) < 2/10)]
    nlinarith [goodMath_abs_sin M hM z, abs_nonneg (M.sin z)]
  have hbcos : ∀ z : ℚ,
      |M.cos z * noiseIntensity ty e * (2/10)| ≤
        noiseIntensity ty e * (2/10) := by
    intro z
    rw [abs_mul, abs_mul, abs_of_nonneg hni,
      abs_of_pos (by norm_num : (0:ℚ) < 2/10)]
    nlinarith [goodMath_abs_cos M hM z, abs_nonneg (M.cos z)]
  obtain ⟨N1, h1⟩ := scalar_converges (e * ip.1 + (1 - e) * tp.1) ip.1
    (noiseIntensity ty e * (2/10)) ε
    (fun t => M.sin (τ t * (1/2) + seed.1 * 100) *
      noiseIntensity ty e * (2/10)) (fun t => hbsin _) hε
  obtain ⟨N2, h2⟩ := scalar_converges (e * ip.2.1 + (1 - e) * tp.2.1) ip.2.1
    (noiseIntensity ty e * (2/10)) ε
    (fun t => M.cos (τ t * (3/10) + seed.2.1 * 100) *
      noiseIntensity ty e * (2/10)) (fun t => hbcos _) hε
  obtain ⟨N3, h3⟩ := scalar_converges (e * ip.2.2 + (1 - e) * tp.2.2) ip.2.2
    (noiseIntensity ty e * (2/10)) ε
    (fun t => M.sin (τ t * (1/2) + seed.2.2 * 100) *
      noiseIntensity ty e * (2/10)) (fun t => hbsin _) hε
  refine ⟨max N1 (max N2 N3), fun t ht => ⟨?_, ?_, ?_⟩⟩
  · rw [liveTraj_fst]
    exact h1 t (le_trans (le_max_left _ _) ht)
  · rw [liveTraj_snd1]
    exact h2 t (le_trans (le_trans (le_max_left _ _) (le_max_right _ _)) ht)
  · rw [liveTraj_snd2]
    exact h3 t (le_trans (le_trans (le_max_right _ _) (le_max_right _ _)) ht)

/-- Witness for the amended C9 at the trivial model, expansion 1, slack 1. -/
theorem C9_convergence_witness :
    ∃ N, ∀ t, N ≤ t →
      |(liveTraj trigZero "planet" 1 ((1:ℚ), (2:ℚ), (3:ℚ)) (0,0,0) (0,0,0)
          (fun k => (k : ℚ)) t).1 -
          (1 * ((1:ℚ), (2:ℚ), (3:ℚ)).1 + (1 - 1) * ((0,0,0) : Vec3).1)| ≤
        noiseIntensity "planet" 1 * (2/10) + 1 ∧
      |(liveTraj trigZero "planet" 1 ((1:ℚ), (2:ℚ), (3:ℚ)) (0,0,0) (0,0,0)
          (fun k => (k : ℚ)) t).2.1 -
          (1 * ((1:ℚ), (2:ℚ), (3:ℚ)).2.1 + (1 - 1) * ((0,0,0) : Vec3).2.1)| ≤
        noiseIntensity "planet" 1 * (2/10) + 1 ∧
      |(liveTraj trigZero "planet" 1 ((1:ℚ), (2:ℚ), (3:ℚ)) (0,0,0) (0,0,0)
          (fun k => (k : ℚ)) t).2.2 -
          (1 * ((1:ℚ), (2:ℚ), (3:ℚ)).2.2 + (1 - 1) * ((0,0,0) : Vec3).2.2)| ≤
        noiseIntensity "planet" 1 * (2/10) + 1 :=
  C9_convergence trigZero "planet" 1 ((1:ℚ), (2:ℚ), (3:ℚ)) (0,0,0) (0,0,0)
    (fun k => (k : ℚ)) 1 trigZero_good (by norm_num) (by norm_num)

/-- A model with constant sine 1 / cosine 0, satisfying `GoodMath`. -/
def trigOne : JsMath :=
  ⟨fun _ => 1, fun _ => 0, fun _ => 0, fun _ _ => 0, fun q => q⟩

theorem trigOne_good : GoodMath trigOne := by
  intro x
  norm_num [trigOne]

theorem noiseIntensity_planet_one : noiseIntensity "planet" 1 = 41/50 := by
  norm_num [noiseIntensity]

/-- Closed form of the x-component of the concrete expansion-1 run used by
the C9 counterexample: with constant jitter `0.164` the live position
climbs from the origin towards `origin + 0.164`. -/
theorem c9run_closed_form : ∀ t,
    (liveTraj trigOne "planet" 1 ((0:ℚ),(0:ℚ),(0:ℚ)) (0,0,0) (0,0,0)
        (fun k => (k : ℚ)) t).1 =
      (41/250) * (1 - (23/25) ^ t)
  | 0 => by
    simp [liveTraj]
  | t + 1 => by
    have ih := c9run_closed_form t
    simp only [liveTraj, frameStep, lerpSpeed]
    rw [ih, noiseIntensity_planet_one]
    show (41:ℚ)/250 * (1 - (23/25) ^ t) +
        (1 * 0 + (1 - 1) * 0 + trigOne.sin ((t:ℚ) * (1/2) + 0 * 100) *
          (41/50) * (2/10) - 41/250 * (1 - (23/25) ^ t)) * (8/100) =
      41/250 * (1 - (23/25) ^ (t + 1))
    show (41:ℚ)/250 * (1 - (23/25) ^ t) +
        (1 * 0 + (1 - 1) * 0 + 1 * (41/50) * (2/10) -
          41/250 * (1 - (23/25) ^ t)) * (8/100) =
      41/250 * (1 - (23/25) ^ (t + 1))
    ring

/-- C9 counterexample: with expansion held at 1 the live position does NOT
converge to within every positive epsilon of the origin position: the
oscillation amplitude at expansion 1 is `0.82 * 0.2 = 0.164`, the largest
of any expansion value.  Concretely, with sine constantly 1 (a legal
`GoodMath` model), origin at 0 and frame times `0, 1, 2, ...`, the
x-component climbs towards `0.164` and stays above `1/20` from frame 5 on,
so no frame count brings it within epsilon `1/20` of the origin. -/
theorem C9_counterexample :
    GoodMath trigOne ∧
      ¬ (∀ ε : ℚ, 0 < ε → ∃ N, ∀ t, N ≤ t →
          |(liveTraj trigOne "planet" 1 ((0:ℚ),(0:ℚ),(0:ℚ)) (0,0,0) (0,0,0)
              (fun k => (k : ℚ)) t).1 - (0 : ℚ)| ≤ ε) := by
  refine ⟨trigOne_good, ?_⟩
  intro hcl
  obtain ⟨N, hN⟩ := hcl (1/20) (by norm_num)
  have ht := hN (max N 5) (le_max_left _ _)
  rw [c9run_closed_form, sub_zero] at ht
  have hple : ((23:ℚ)/25) ^ (max N 5) ≤ (23/25) ^ 5 :=
    pow_le_pow_of_le_one (by norm_num) (by norm_num) (le_max_right _ _)
  have hp1 : ((23:ℚ)/25) ^ (max N 5) ≤ 1 :=
    pow_le_one₀ (by norm_num) (by norm_num)
  have hval : ((23:ℚ)/25) ^ 5 = 6436343/9765625 := by norm_num
  rw [hval] at hple
  rw [abs_of_nonneg (by nlinarith)] at ht
  linarith

/-! ### Object identity of colors: a heap model for the aliasing claim -/

def updFn (f : ℕ → Color) (a : ℕ) (c : Color) : ℕ → Color :=
  fun x => if x = a then c else f x

/-- A store of `THREE.Color` objects: values indexed by object identity,
plus the next fresh identity. -/
structure Store where
  heap : ℕ → Color
  next : ℕ

/-- Allocate a fresh object (`new THREE.Color(...)`). -/
def Store.alloc (st : Store) (c : Color) : ℕ × Store :=
  (st.next, ⟨updFn st.heap st.next c, st.next + 1⟩)

/-- In-place update of an existing object (the mutating color methods). -/
def Store.write (st : Store) (a : ℕ) (c : Color) : Store :=
  ⟨updFn st.heap a c, st.next⟩

/-- `color.clone()`: a fresh object holding the same value. -/
def Store.cloneAt (st : Store) (a : ℕ) : ℕ × Store := st.alloc (st.heap a)

/-- `getSafeColor` on the heap (lines 22-38): palettes are lists of object
identities; the result is always a freshly allocated object — white for a
degenerate palette, a clone of the selected entry otherwise. -/
def getSafeColorH (st : Store) (pal : List ℕ) (idx : JsFloat) : ℕ × Store :=
  if pal.isEmpty then st.alloc Color.white
  else
    let safeIndex : ℚ := if idx.isFinite then idx.val else 0
    let j : ℤ := max 0 (min ⌊safeIndex⌋ ((pal.length : ℤ) - 1))
    match pal.get? j.toNat with
    | some a => st.cloneAt a
    | none => st.alloc Color.white

/-- The per-particle color programs of the generator, by call site: a plain
palette sample; the Sun-surface glow `addScalar` (line 96); the Cassini-gap
`multiplyScalar` darkening (line 239); the Earth arid-boundary `lerp`
(line 304); and the clone-then-fade of the fixed orbit-line and asteroid
base colors (lines 120, 136). -/
inductive ColorOp where
  | paletteSample (pal : List ℕ) (idx : JsFloat)
  | paletteGlow (pal : List ℕ) (idx : JsFloat) (s : ℚ)
  | paletteDarken (pal : List ℕ) (idx : JsFloat) (s : ℚ)
  | paletteLerp (pal : List ℕ) (idx : JsFloat) (c2 : Color) (t : ℚ)
  | cloneFade (a : ℕ) (s : ℚ)

def runOp (st : Store) : ColorOp → Store
  | .paletteSample pal idx => (getSafeColorH st pal idx).2
  | .paletteGlow pal idx s =>
    let o := getSafeColorH st pal idx
    o.2.write o.1 ((o.2.heap o.1).addScalar s)
  | .paletteDarken pal idx s =>
    let o := getSafeColorH st pal idx
    o.2.write o.1 ((o.2.heap o.1).multiplyScalar s)
  | .paletteLerp pal idx c2 t =>
    let o := getSafeColorH st pal idx
    o.2.write o.1 ((o.2.heap o.1).lerp c2 t)
  | .cloneFade a s =>
    let o := st.cloneAt a
    o.2.write o.1 ((o.2.heap o.1).multiplyScalar s)

def runOps (st : Store) (ops : List ColorOp) : Store := ops.foldl runOp st

/-- The heap sampler is exactly: allocate a fresh object whose value is the
pure sampler's result on the palette's current values. -/
theorem getSafeColorH_eq (st : Store) (pal : List ℕ) (idx : JsFloat) :
    getSafeColorH st pal idx =
      st.alloc (getSafeColor (pal.map st.heap) idx) := by
  unfold getSafeColorH getSafeColor Store.cloneAt
  have hlen : (pal.map st.heap).length = pal.length := List.length_map _ _
  have hemp : (pal.map st.heap).isEmpty = pal.isEmpty := by cases pal <;> rfl
  rw [hemp, hlen]
  by_cases he : pal.isEmpty
  · rw [if_pos he, if_pos he]
  · rw [if_neg he, if_neg he]
    dsimp only
    rw [List.get?_map]
    cases hget : pal.get?
        (max 0 (min ⌊if idx.isFinite then idx.val else 0⌋
          ((pal.length : ℤ) - 1))).toNat with
    | some b => rfl
    | none => rfl

theorem alloc_fresh (st : Store) (c : Color) :
    (st.alloc c).1 = st.next ∧ (st.alloc c).2.next = st.next + 1 ∧
      (st.alloc c).2.heap st.next = c ∧
      ∀ a, a < st.next → (st.alloc c).2.heap a = st.heap a := by
  refine ⟨rfl, rfl, by simp [Store.alloc, updFn], fun a ha => ?_⟩
  simp [Store.alloc, updFn, Nat.ne_of_lt ha]

theorem getSafeColorH_spec (st : Store) (pal : List ℕ) (idx : JsFloat) :
    (getSafeColorH st pal idx).1 = st.next ∧
      (getSafeColorH st pal idx).2.next = st.next + 1 ∧
      ∀ a, a < st.next → (getSafeColorH st pal idx).2.heap a = st.heap a := by
  rw [getSafeColorH_eq]
  obtain ⟨h1, h2, -, h4⟩ := alloc_fresh st (getSafeColor (pal.map st.heap) idx)
  exact ⟨h1, h2, h4⟩

/-- The freshly cloned object's value is the pure sampler's result on the
palette's current values. -/
theorem getSafeColorH_value (st : Store) (pal : List ℕ) (idx : JsFloat) :
    (getSafeColorH st pal idx).2.heap (getSafeColorH st pal idx).1 =
      getSafeColor (pal.map st.heap) idx := by
  rw [getSafeColorH_eq]
  obtain ⟨h1, -, h3, -⟩ := alloc_fresh st (getSafeColor (pal.map st.heap) idx)
  rw [h1]
  exact h3

theorem runOp_preserves (st : Store) (op : ColorOp) :
    st.next ≤ (runOp st op).next ∧
      ∀ a, a < st.next → (runOp st op).heap a = st.heap a := by
  cases op with
  | paletteSample pal idx =>
    obtain ⟨-, h2, h3⟩ := getSafeColorH_spec st pal idx
    exact ⟨by rw [runOp, h2]; omega, h3⟩
  | paletteGlow pal idx s =>
    obtain ⟨h1, h2, h3⟩ := getSafeColorH_spec st pal idx
    refine ⟨by simp only [runOp, Store.write]; rw [h2]; omega, fun a ha => ?_⟩
    simp only [runOp, Store.write, updFn]
    rw [if_neg (by omega : ¬ a = (getSafeColorH st pal idx).1)]
    · exact h3 a ha
  | paletteDarken pal idx s =>
    obtain ⟨h1, h2, h3⟩ := getSafeColorH_spec st pal idx
    refine ⟨by simp only [runOp, Store.write]; rw [h2]; omega, fun a ha => ?_⟩
    simp only [runOp, Store.write, updFn]
    rw [if_neg (by omega : ¬ a = (getSafeColorH st pal idx).1)]
    · exact h3 a ha
  | paletteLerp pal idx c2 t =>
    obtain ⟨h1, h2, h3⟩ := getSafeColorH_spec st pal idx
    refine ⟨by simp only [runOp, Store.write]; rw [h2]; omega, fun a ha => ?_⟩
    simp only [runOp, Store.write, updFn]
    rw [if_neg (by omega : ¬ a = (getSafeColorH st pal idx).1)]
    · exact h3 a ha
  | cloneFade b s =>
    refine ⟨by simp [runOp, Store.write, Store.cloneAt, Store.alloc],
      fun a ha => ?_⟩
    simp only [runOp, Store.write, Store.cloneAt, Store.alloc, updFn]
    rw [if_neg (by omega : ¬ a = st.next)]
    simp [Nat.ne_of_lt ha]

theorem runOps_preserves : ∀ (ops : List ColorOp) (st : Store),
    st.next ≤ (runOps st ops).next ∧
      ∀ a, a < st.next → (runOps st ops).heap a = st.heap a
  | [], st => ⟨le_refl _, fun _ _ => rfl⟩
  | op :: ops, st => by
    obtain ⟨h1, h2⟩ := runOp_preserves st op
    obtain ⟨h3, h4⟩ := runOps_preserves ops (runOp st op)
    have hfold : runOps st (op :: ops) = runOps (runOp st op) ops := rfl
    refine ⟨by rw [hfold]; omega, fun a ha => ?_⟩
    rw [hfold, h4 a (lt_of_lt_of_le ha h1), h2 a ha]

/-- C10: generation never mutates the palettes.  `getSafeColor` returns a
freshly allocated clone (identity `st.next`, past every live object) whose
value is the pure sampler's result on the palette values, and allocating it
changes no existing object; consequently every sequence of the generation's
per-particle color programs — including the Sun-glow `addScalar`, the
Cassini-gap `multiplyScalar` and the orbit-line fading, which mutate only
the fresh clone — leaves every pre-existing object, in particular every
body- and ring-palette entry, with its original value. -/
theorem C10_palettes_never_mutated (st : Store) (ops : List ColorOp)
    (pal : List ℕ) (idx : JsFloat) (a : ℕ) (ha : a < st.next) :
    (getSafeColorH st pal idx).1 = st.next ∧
      (getSafeColorH st pal idx).2.heap (getSafeColorH st pal idx).1 =
        getSafeColor (pal.map st.heap) idx ∧
      (getSafeColorH st pal idx).2.heap a = st.heap a ∧
      (runOps st ops).heap a = st.heap a :=
  ⟨(getSafeColorH_spec st pal idx).1,
    getSafeColorH_value st pal idx,
    (getSafeColorH_spec st pal idx).2.2 a ha,
    (runOps_preserves ops st).2 a ha⟩

/-- Witness for C10: a store with one palette entry (identity 0), running
the three cited mutation sites. -/
theorem C10_palettes_never_mutated_witness :
    ((getSafeColorH ⟨fun _ => ⟨1/2, 1/3, 1/4⟩, 1⟩ [0] (.finite 0)).1 = 1 ∧
      (getSafeColorH ⟨fun _ => ⟨1/2, 1/3, 1/4⟩, 1⟩ [0] (.finite 0)).2.heap
          (getSafeColorH ⟨fun _ => ⟨1/2, 1/3, 1/4⟩, 1⟩ [0] (.finite 0)).1 =
        getSafeColor ([0].map (⟨fun _ => ⟨1/2, 1/3, 1/4⟩, 1⟩ : Store).heap)
          (.finite 0) ∧
      (getSafeColorH ⟨fun _ => ⟨1/2, 1/3, 1/4⟩, 1⟩ [0] (.finite 0)).2.heap 0 =
        (⟨fun _ => ⟨1/2, 1/3, 1/4⟩, 1⟩ : Store).heap 0 ∧
      (runOps ⟨fun _ => ⟨1/2, 1/3, 1/4⟩, 1⟩
          [.paletteGlow [0] (.finite 0) (2/10),
           .paletteDarken [0] (.finite 0) (2/10),
           .cloneFade 0 (3/10)]).heap 0 =
        (⟨fun _ => ⟨1/2, 1/3, 1/4⟩, 1⟩ : Store).heap 0) :=
  C10_palettes_never_mutated ⟨fun _ => ⟨1/2, 1/3, 1/4⟩, 1⟩
    [.paletteGlow [0] (.finite 0) (2/10),
     .paletteDarken [0] (.finite 0) (2/10),
     .cloneFade 0 (3/10)] [0] (.finite 0) 0 (by decide)
